import Mathlib

/-!
Shallow embedding of the showtime repository's session engine
(src/network_operations.py and src/run_automation.py).

Bytes are modelled as `Nat` (values 0..255 in practice); byte strings as
`List Nat`.  Network reads are modelled as an explicit event stream: each
`await asyncio.wait_for(reader.read n, timeout)` either yields a chunk of
bytes (`ReadEvt.data d`, where `d = []` is EOF, i.e. the peer closed), or
times out (`ReadEvt.timeout`).  A finite event list that runs out behaves
like the code when every further read times out, since every read in the
source is wrapped in a timeout.  Writes to the per-session log file are
modelled as an append-only `List LogLine`, one entry per `log_file.write`
call site in the source.
-/

namespace Showtime

/-- Byte-level lowercase, the embedding of Python `bytes.lower()`
(ASCII A-Z are shifted to a-z, all other bytes unchanged). -/
def lowerByte (b : Nat) : Nat :=
  if 65 ≤ b ∧ b ≤ 90 then b + 32 else b

/-- The embedding of Python byte `\s` / `bytes.strip()` whitespace:
space, tab, newline, carriage return, vertical tab, form feed. -/
def isSpaceByte (b : Nat) : Bool :=
  b == 32 || b == 9 || b == 10 || b == 13 || b == 11 || b == 12

/-- The prompt terminator class `[>#$]` of `PROMPT_RE` in
network_operations.py line 13. -/
def isTermByte (b : Nat) : Bool :=
  b == 62 || b == 35 || b == 36

/-- Substring test on byte lists: the embedding of Python `p in b`. -/
def containsSeq (pat : List Nat) : List Nat → Bool
  | [] => pat.isEmpty
  | b :: rest => List.isPrefixOf pat (b :: rest) || containsSeq pat rest

/-- b'username:' -/
def usernameCue : List Nat := [117, 115, 101, 114, 110, 97, 109, 101, 58]

/-- b'login:' -/
def loginCue : List Nat := [108, 111, 103, 105, 110, 58]

/-- b'password:' -/
def passwordCue : List Nat := [112, 97, 115, 115, 119, 111, 114, 100, 58]

/-- The embedding of `bytes.splitlines` (helper, carries the current
partial line): lines are broken at LF, CR, or the CRLF pair; a terminal
break does not open a final empty line. -/
def splitLinesGo : List Nat → List Nat → List (List Nat)
  | [], cur => if cur.isEmpty then [] else [cur]
  | 13 :: 10 :: rest, cur => cur :: splitLinesGo rest []
  | 13 :: rest, cur => cur :: splitLinesGo rest []
  | 10 :: rest, cur => cur :: splitLinesGo rest []
  | b :: rest, cur => splitLinesGo rest (cur ++ [b])

/-- `full_output.splitlines()` from network_operations.py line 28. -/
def splitLines (buf : List Nat) : List (List Nat) :=
  splitLinesGo buf []

/-- `[line for line in full_output.splitlines() if line.strip()]`
(network_operations.py line 28). -/
def nonEmptyLines (buf : List Nat) : List (List Nat) :=
  (splitLines buf).filter (fun l => l.any (fun b => ! isSpaceByte b))

/-- `PROMPT_RE.search(line)` for `PROMPT_RE = re.compile(b'\S+[>#$]\s*$')`
on a single line (lines produced by splitlines contain no CR/LF, so `$`
is plain end-of-line): after dropping trailing whitespace the line must
end in a terminator byte immediately preceded by a non-space byte. -/
def promptMatch (line : List Nat) : Bool :=
  match (line.reverse.dropWhile isSpaceByte) with
  | t :: c :: _ => isTermByte t && ! isSpaceByte c
  | _ => false

/-- The prompt-completion verdict of read_until_prompt
(network_operations.py lines 28-29) as a function of the accumulated
buffer: the last non-blank line matches PROMPT_RE. -/
def promptDetected (buf : List Nat) : Bool :=
  match (nonEmptyLines buf).getLast? with
  | some l => promptMatch l
  | none => false

/-- Modelled from the spec words for claim C5 only, to be compared with
`promptMatch` (which is translated from the code): the line is a
non-space token ending in a prompt terminator followed by optional
trailing whitespace, somewhere-suffix-matched as `re.search` does. -/
def promptSpecMatch (line : List Nat) : Prop :=
  ∃ p c t w, line = p ++ [c, t] ++ w ∧ isSpaceByte c = false ∧
    isTermByte t = true ∧ ∀ b ∈ w, isSpaceByte b = true

/-- One incremental feeding step: extend the accumulated buffer by a
chunk and recompute the verdict on the grown buffer, exactly as the
read loop in read_until_prompt recomputes from `full_output`. -/
def feedStep (st : List Nat × Bool) (c : List Nat) : List Nat × Bool :=
  (st.1 ++ c, promptDetected (st.1 ++ c))

/-- Feed chunks one at a time, re-evaluating the detector on each grown
prefix; the result is the verdict after the last chunk. -/
def feedChunks (chunks : List (List Nat)) : Bool :=
  (chunks.foldl feedStep ([], promptDetected [])).2

/-- Telnet IAC filtering of one received chunk
(network_operations.py lines 60-74): splits the chunk into the
negotiation response to send back and the clean (non-IAC) bytes.
IAC = 255, WILL = 251, WONT = 252, DO = 253, DONT = 254; a WILL offer is
answered IAC DONT option, a DO offer IAC WONT option, any other IAC
command is consumed silently, and three bytes are skipped per IAC. -/
def telnetResponse (c : Nat) (o : List Nat) : List Nat :=
  if c = 251 then 255 :: 254 :: o
  else if c = 253 then 255 :: 252 :: o
  else []

def telnetFilter : List Nat → List Nat × List Nat
  | [] => ([], [])
  | b :: rest =>
    if b = 255 then
      match rest with
      | [] => ([], [])
      | [c] => (telnetResponse c [], [])
      | c :: o :: rest2 =>
        let pr := telnetFilter rest2
        (telnetResponse c [o] ++ pr.1, pr.2)
    else
      let pr := telnetFilter rest
      (pr.1, b :: pr.2)

/-- `any(p in buffer.lower() for p in [b'username:', b'login:'])`
(network_operations.py line 79). -/
def cueFound (buf : List Nat) : Bool :=
  containsSeq usernameCue (buf.map lowerByte) ||
    containsSeq loginCue (buf.map lowerByte)

/-- `'password:' in buffer.decode('utf-8', errors='ignore').lower()`
(network_operations.py line 101), at byte level; on the ASCII transcripts
modelled here the decode step is the identity. -/
def pwFound (buf : List Nat) : Bool :=
  containsSeq passwordCue (buf.map lowerByte)

/-- `":" in response` (network_operations.py lines 127 and 218); the
colon byte 58 always survives `decode(errors='ignore')` unchanged. -/
def hasColon (resp : List Nat) : Bool :=
  resp.contains 58

/-- One network read attempt: a timeout, or a chunk of bytes
(`data []` is EOF — the peer closed the connection). -/
inductive ReadEvt where
  | timeout
  | data (d : List Nat)
  deriving DecidableEq, Repr

/-- The Telnet option-negotiation / username-cue loop
(network_operations.py lines 55-84): up to the given number of attempts,
read a chunk; a timeout or EOF breaks; otherwise IAC-filter the chunk,
append the response bytes to the write-back accumulator and the clean
bytes to the buffer, and break once the username/login cue is found.
Returns (buffer, bytes written back, remaining events). -/
def negoLoop : Nat → List ReadEvt → List Nat → List Nat →
    List Nat × List Nat × List ReadEvt
  | 0, evts, buf, resp => (buf, resp, evts)
  | _ + 1, [], buf, resp => (buf, resp, [])
  | _ + 1, ReadEvt.timeout :: rest, buf, resp => (buf, resp, rest)
  | _ + 1, ReadEvt.data [] :: rest, buf, resp => (buf, resp, rest)
  | n + 1, ReadEvt.data (b :: bs) :: rest, buf, resp =>
    let fr := telnetFilter (b :: bs)
    let buf2 := buf ++ fr.2
    let resp2 := resp ++ fr.1
    if cueFound buf2 then (buf2, resp2, rest) else negoLoop n rest buf2 resp2

/-- The password-cue loop (network_operations.py lines 95-105): 30 polls;
a timeout just consumes a poll, EOF breaks with the cue not found, data
is appended (with NUL bytes stripped) and the loop stops successfully
once b'password:' appears in the lowercased buffer.
Returns (found, buffer, remaining events). -/
def pwLoop : Nat → List ReadEvt → List Nat →
    Bool × List Nat × List ReadEvt
  | 0, evts, buf => (false, buf, evts)
  | _ + 1, [], buf => (false, buf, [])
  | n + 1, ReadEvt.timeout :: rest, buf => pwLoop n rest buf
  | _ + 1, ReadEvt.data [] :: rest, buf => (false, buf, rest)
  | n + 1, ReadEvt.data (b :: bs) :: rest, buf =>
    let buf2 := buf ++ (b :: bs).filter (fun x => x != 0)
    if pwFound buf2 then (true, buf2, rest) else pwLoop n rest buf2

/-- read_until_prompt (network_operations.py lines 20-34): accumulate
chunks until the prompt verdict holds on the buffer or EOF; a read
timeout raises PromptTimeoutError, modelled as `none`.
Returns the accumulated output and the remaining events. -/
def rupGo : List ReadEvt → List Nat → Option (List Nat × List ReadEvt)
  | [], _ => none
  | ReadEvt.timeout :: _, _ => none
  | ReadEvt.data [] :: rest, acc => some (acc, rest)
  | ReadEvt.data (b :: bs) :: rest, acc =>
    let acc2 := acc ++ (b :: bs)
    if promptDetected acc2 then some (acc2, rest) else rupGo rest acc2

def readUntilPrompt (evts : List ReadEvt) : Option (List Nat × List ReadEvt) :=
  rupGo evts []

/-- One node description as parsed from the input file: the dict keys
used by network_operations.py / run_automation.py.  `none` models an
absent dict key, `some ""` a key present with an empty value. -/
structure NodeInfo where
  nodename : String
  ip_address : String
  protocol : Option String
  login_id : String
  login_password : String
  additional_command_1 : Option String
  additional_command_2 : Option String
  commands : List String
  deriving DecidableEq, Repr

/-- Python truthiness of `node_info.get(key)` for a string-valued key:
present and non-empty. -/
def optTruthy (o : Option String) : Bool :=
  match o with
  | some s => ! s.isEmpty
  | none => false

/-- One `log_file.write` call site of network_operations.py, in order of
appearance in the source. -/
inductive LogLine where
  | connectBanner (nodename ip proto : String)
  | received (buf : List Nat)
  | output (buf : List Nat)
  | sendingAdd1 (cmd : String)
  | sendingAdd2 (cmd : String)
  | sendingCmd (cmd : String)
  | attemptLogout (cmd : String)
  | waitingClose
  | closedOk
  | errorLine (msg : String)
  | sshErrorLine (msg : String)
  deriving DecidableEq, Repr

/-- The exceptions execute_telnet_async / execute_ssh_async re-raise to
run_node_task, plus a catch-all for any other Python exception. -/
inductive PyExc where
  | timeoutErr
  | promptTimeoutErr
  | logoutFailedErr
  | otherExc (msg : String)
  deriving DecidableEq, Repr

/-- `str(e)` for the modelled exceptions (messages from
network_operations.py lines 32 and 170). -/
def pyExcStr : PyExc → String
  | PyExc.timeoutErr => "TimeoutError"
  | PyExc.promptTimeoutErr => "Timeout waiting for prompt after 40 seconds."
  | PyExc.logoutFailedErr => "Failed to disconnect from server after sending exit/logout."
  | PyExc.otherExc m => m

/-- The scripted-command loop `for cmd in node_info['commands']`
(network_operations.py lines 136-143): write the command marker line,
read until prompt (a timeout raises PromptTimeoutError → `none`), log the
response.  Returns the grown log and, on success, the remaining events. -/
def runScripted : List String → List ReadEvt → List LogLine →
    List LogLine × Option (List ReadEvt)
  | [], evts, log => (log, some evts)
  | c :: cs, evts, log =>
    let log1 := log ++ [LogLine.sendingCmd c]
    match readUntilPrompt evts with
    | none => (log1, none)
    | some (resp, rest) => runScripted cs rest (log1 ++ [LogLine.output resp])

/-- The inner run_commands coroutine (network_operations.py lines
116-143 and, duplicated verbatim, 208-232): additional_command_1 is sent
unconditionally when present and non-empty; additional_command_2 is sent
only when additional_command_1 was sent and its response contains ':';
then every scripted command runs in order. -/
def runCommandsPhase (node : NodeInfo) (evts : List ReadEvt)
    (log : List LogLine) : List LogLine × Option (List ReadEvt) :=
  if optTruthy node.additional_command_1 then
    let c1 := node.additional_command_1.getD ""
    let log1 := log ++ [LogLine.sendingAdd1 c1]
    match readUntilPrompt evts with
    | none => (log1, none)
    | some (resp, rest) =>
      let log2 := log1 ++ [LogLine.output resp]
      if optTruthy node.additional_command_2 && hasColon resp then
        let c2 := node.additional_command_2.getD ""
        let log3 := log2 ++ [LogLine.sendingAdd2 c2]
        match readUntilPrompt rest with
        | none => (log3, none)
        | some (resp2, rest2) =>
          runScripted node.commands rest2 (log3 ++ [LogLine.output resp2])
      else runScripted node.commands rest log2
  else runScripted node.commands evts log

/-- The 5-poll EOF wait after one logout phrase (network_operations.py
lines 160-169): a timeout logs a waiting line and consumes a poll,
non-empty data consumes a poll silently, EOF logs success and stops.
Returns (eof seen, remaining events, grown log). -/
def logoutPolls : Nat → List ReadEvt → List LogLine →
    Bool × List ReadEvt × List LogLine
  | 0, evts, log => (false, evts, log)
  | n + 1, [], log => logoutPolls n [] (log ++ [LogLine.waitingClose])
  | n + 1, ReadEvt.timeout :: rest, log =>
    logoutPolls n rest (log ++ [LogLine.waitingClose])
  | _ + 1, ReadEvt.data [] :: rest, log => (true, rest, log ++ [LogLine.closedOk])
  | n + 1, ReadEvt.data (_ :: _) :: rest, log => logoutPolls n rest log

/-- The robust logout procedure (network_operations.py lines 154-170):
send 'exit' and poll 5 times for EOF, then 'logout' and poll 5 more
times; EOF anywhere is the only accepted proof of logout.
Returns the grown log and whether logout succeeded. -/
def logoutPhase (evts : List ReadEvt) (log : List LogLine) :
    List LogLine × Bool :=
  let log1 := log ++ [LogLine.attemptLogout "exit"]
  match logoutPolls 5 evts log1 with
  | (true, _, log2) => (log2, true)
  | (false, rest, log2) =>
    let log3 := log2 ++ [LogLine.attemptLogout "logout"]
    match logoutPolls 5 rest log3 with
    | (true, _, log4) => (log4, true)
    | (false, _, log4) => (log4, false)

/-- The part of a session shared verbatim by the Telnet and SSH
executors after authentication: initial read-until-prompt, command
execution, logout (single-run mode, cycle_interval = -1).  The success
value is the log file path, as returned by the source. -/
def sessionScript (node : NodeInfo) (logPath : String)
    (evts : List ReadEvt) (log : List LogLine) :
    List LogLine × Except PyExc (Option String) :=
  match readUntilPrompt evts with
  | none => (log, Except.error PyExc.promptTimeoutErr)
  | some (initOut, rest) =>
    let log1 := log ++ [LogLine.output initOut]
    match runCommandsPhase node rest log1 with
    | (log2, none) => (log2, Except.error PyExc.promptTimeoutErr)
    | (log2, some rest2) =>
      match logoutPhase rest2 log2 with
      | (log3, true) => (log3, Except.ok (some logPath))
      | (log3, false) => (log3, Except.error PyExc.logoutFailedErr)

/-- Outcome of `asyncio.open_connection` under `wait_for` timeout 10
(network_operations.py lines 45-48). -/
inductive ConnEvt where
  | ok
  | timeoutErr
  | osErr (msg : String)
  deriving DecidableEq, Repr

/-- execute_telnet_async (network_operations.py lines 36-185), single-run
mode: the log file is opened and the banner written before the connect
attempt; connect timeout re-raises asyncio.TimeoutError; any other
connect error is swallowed by the generic handler which logs and returns
None; then negotiation/login, the shared session script, with
asyncio.TimeoutError raised when the username/login or password cue is
not observed.  Result: (log lines written, returned value or raised
exception). -/
def executeTelnetAsync (node : NodeInfo) (logPath : String)
    (conn : ConnEvt) (evts : List ReadEvt) :
    List LogLine × Except PyExc (Option String) :=
  let banner := LogLine.connectBanner node.nodename node.ip_address "Telnet"
  match conn with
  | ConnEvt.timeoutErr => ([banner], Except.error PyExc.timeoutErr)
  | ConnEvt.osErr m => ([banner, LogLine.errorLine m], Except.ok none)
  | ConnEvt.ok =>
    match negoLoop 10 evts [] [] with
    | (buf, _, rest) =>
      let log1 := [banner, LogLine.received buf]
      if cueFound buf then
        match pwLoop 30 rest [] with
        | (true, _, rest2) => sessionScript node logPath rest2 log1
        | (false, _, _) => (log1, Except.error PyExc.timeoutErr)
      else (log1, Except.error PyExc.timeoutErr)

/-- Outcome of `asyncssh.connect` + `create_process`
(network_operations.py lines 195-202). -/
inductive SshConnEvt where
  | ok
  | sshErr (msg : String)
  | otherErr (msg : String)
  deriving DecidableEq, Repr

/-- execute_ssh_async (network_operations.py lines 187-271), single-run
mode: banner written before connecting; asyncssh errors (connect or
auth) are swallowed, logged and yield None; then the shared session
script. -/
def executeSshAsync (node : NodeInfo) (logPath : String)
    (conn : SshConnEvt) (evts : List ReadEvt) :
    List LogLine × Except PyExc (Option String) :=
  let banner := LogLine.connectBanner node.nodename node.ip_address "SSH"
  match conn with
  | SshConnEvt.sshErr m => ([banner, LogLine.sshErrorLine m], Except.ok none)
  | SshConnEvt.otherErr m => ([banner, LogLine.errorLine m], Except.ok none)
  | SshConnEvt.ok => sessionScript node logPath evts [banner]

/-- What `await asyncio.wait_for(task, timeout=node_timeout)` can do in
run_node_task: complete with the executor's return value, re-raise an
exception from the executor, or time out as a whole. -/
inductive AwaitedOutcome where
  | completed (v : Option String)
  | raised (e : PyExc)
  | timedOut
  deriving DecidableEq, Repr

/-- The `(node_name, result, error)` triple every run_node_task path
returns (run_automation.py lines 236-244). -/
structure TaskResult where
  name : String
  result : Option String
  error : Option String
  deriving DecidableEq, Repr

/-- ASCII lowercase on strings: the embedding of `str.lower()` as used
on the protocol tag. -/
def lowerString (s : String) : String :=
  ⟨s.data.map (fun c =>
    if 65 ≤ c.toNat ∧ c.toNat ≤ 90 then Char.ofNat (c.toNat + 32) else c)⟩

/-- `node.get('protocol', 'ssh').lower()` (run_automation.py line 228). -/
def protocolOf (node : NodeInfo) : String :=
  lowerString (node.protocol.getD "ssh")

/-- run_node_task (run_automation.py lines 225-244): an unknown protocol
yields an error triple without launching; otherwise the awaited session
maps to exactly one triple: a completed value, or "TimeoutError" for
asyncio.TimeoutError (whether raised inside the session or by the
overall wait_for), or str(e) for any other exception.  Total: no
exception ever propagates past this boundary. -/
def runNodeTask (node : NodeInfo) (outcome : AwaitedOutcome) : TaskResult :=
  let p := protocolOf node
  if p = "ssh" ∨ p = "telnet" then
    match outcome with
    | AwaitedOutcome.completed v => ⟨node.nodename, v, none⟩
    | AwaitedOutcome.timedOut => ⟨node.nodename, none, some "TimeoutError"⟩
    | AwaitedOutcome.raised PyExc.timeoutErr =>
      ⟨node.nodename, none, some "TimeoutError"⟩
    | AwaitedOutcome.raised e => ⟨node.nodename, none, some (pyExcStr e)⟩
  else ⟨node.nodename, none, some ("Unknown protocol: " ++ p)⟩

/-- The batch: one run_node_task per submitted node, the per-node session
outcomes given by an oracle (run_automation.py line 251; as_completed
then drains these same triples, one per task, in completion order). -/
def runBatch (nodes : List NodeInfo) (oracle : NodeInfo → AwaitedOutcome) :
    List TaskResult :=
  nodes.map (fun n => runNodeTask n (oracle n))

/-- The completion loop's collection of archive candidates
(run_automation.py lines 254-266): a path is kept iff the triple carries
no error and a truthy result value. -/
def collectArtifacts (results : List TaskResult) : List String :=
  results.filterMap (fun r =>
    match r.error, r.result with
    | none, some p => if p.isEmpty then none else some p
    | _, _ => none)

/-- BASE_NODE_TIMEOUT = 30.0 (run_automation.py line 171); these float
constants and their arithmetic here are exact, so Rat models them
faithfully. -/
def BASE_NODE_TIMEOUT : Rat := 30

/-- SECONDS_PER_COMMAND = 5.0 (run_automation.py line 172). -/
def SECONDS_PER_COMMAND : Rat := 5

/-- `len([k for k in node if k.startswith('additional_command')])`
(run_automation.py line 219): counts the additional-command keys present
in the node dict. -/
def additionalKeyCount (node : NodeInfo) : Nat :=
  (if node.additional_command_1.isSome then 1 else 0) +
    (if node.additional_command_2.isSome then 1 else 0)

/-- `num_commands` (run_automation.py line 219). -/
def numCommands (node : NodeInfo) : Nat :=
  node.commands.length + additionalKeyCount node

/-- `node_timeout = BASE_NODE_TIMEOUT + (num_commands * SECONDS_PER_COMMAND)`
(run_automation.py line 220). -/
def nodeTimeout (node : NodeInfo) : Rat :=
  BASE_NODE_TIMEOUT + (numCommands node : Rat) * SECONDS_PER_COMMAND

/-- A copy of the node with one scripted command appended. -/
def addCommand (node : NodeInfo) (c : String) : NodeInfo :=
  ⟨node.nodename, node.ip_address, node.protocol, node.login_id,
    node.login_password, node.additional_command_1,
    node.additional_command_2, node.commands ++ [c]⟩

/-- How a session executor's result reaches run_node_task's await: a
returned value completes, a raised exception is re-raised. -/
def toAwaited : Except PyExc (Option String) → AwaitedOutcome
  | Except.ok v => AwaitedOutcome.completed v
  | Except.error e => AwaitedOutcome.raised e

/-- Concrete nodes and oracles used by witnesses below. -/
def wNodeA : NodeInfo :=
  ⟨"A", "10.0.0.1", some "ssh", "u", "p", none, none, []⟩

def wNodeB : NodeInfo :=
  ⟨"B", "10.0.0.2", some "telnet", "u", "p", none, none, []⟩

def wOracle1 : NodeInfo → AwaitedOutcome := fun n =>
  if n.nodename = "A" then AwaitedOutcome.raised PyExc.logoutFailedErr
  else AwaitedOutcome.completed (some "b.txt")

def wOracle2 : NodeInfo → AwaitedOutcome := fun n =>
  if n.nodename = "A" then AwaitedOutcome.timedOut
  else AwaitedOutcome.completed (some "b.txt")

theorem runNodeTask_name (node : NodeInfo) (o : AwaitedOutcome) :
    (runNodeTask node o).name = node.nodename := by
  cases o with
  | completed v => simp only [runNodeTask]; split_ifs <;> rfl
  | timedOut => simp only [runNodeTask]; split_ifs <;> rfl
  | raised e => cases e <;> (simp only [runNodeTask]; split_ifs <;> rfl)

/-- C1: For every sequence of node profiles submitted to a run, the
orchestrator's completion loop yields exactly one per-node result record
(node name, result, error) for every profile, with no duplicates and no
omissions, regardless of whether the session succeeded, raised, or timed
out.  The list of names of the produced triples equals, position by
position, the list of submitted profile names, for every assignment of
session outcomes; `as_completed` then drains exactly these triples in
some completion order, a permutation of this list. -/
theorem run_yields_one_result_per_profile :
    ∀ (nodes : List NodeInfo) (oracle : NodeInfo → AwaitedOutcome),
      (runBatch nodes oracle).map TaskResult.name =
        nodes.map NodeInfo.nodename := by
  intro nodes oracle
  induction nodes with
  | nil => rfl
  | cons n ns ih =>
    simp only [runBatch, List.map_cons, List.map_map] at ih ⊢
    rw [runNodeTask_name]
    exact congrArg _ ih

/-- C2: every fault raised inside a session executor is caught at the
run_node_task boundary and converted into that node's own error triple
(first conjunct: run_node_task is total on raised exceptions and the
triple carries the node's name and a non-empty error); the batch never
shrinks (second conjunct); and the record produced for a node depends
only on that node's own outcome, so one session's failure never aborts,
skips, or alters the processing of any other session (third conjunct). -/
theorem faults_contained_at_task_boundary :
    (∀ (node : NodeInfo) (e : PyExc),
        (runNodeTask node (AwaitedOutcome.raised e)).name = node.nodename ∧
        ((runNodeTask node (AwaitedOutcome.raised e)).error).isSome = true) ∧
    (∀ (nodes : List NodeInfo) (oracle : NodeInfo → AwaitedOutcome),
        (runBatch nodes oracle).length = nodes.length) ∧
    (∀ (nodes : List NodeInfo) (o1 o2 : NodeInfo → AwaitedOutcome)
        (i : Nat) (n : NodeInfo),
        nodes[i]? = some n → o1 n = o2 n →
        (runBatch nodes o1)[i]? = (runBatch nodes o2)[i]?) := by
  refine ⟨?_, ?_, ?_⟩
  · intro node e
    refine ⟨runNodeTask_name node (AwaitedOutcome.raised e), ?_⟩
    cases e <;> (simp only [runNodeTask]; split_ifs <;> rfl)
  · intro nodes oracle
    simp [runBatch]
  · intro nodes o1 o2 i n hget hagree
    unfold runBatch
    rw [List.getElem?_map, List.getElem?_map, hget]
    simp [hagree]

theorem faults_contained_at_task_boundary_witness :
    (runBatch [wNodeA, wNodeB] wOracle1)[1]? =
      (runBatch [wNodeA, wNodeB] wOracle2)[1]? :=
  faults_contained_at_task_boundary.2.2 [wNodeA, wNodeB] wOracle1 wOracle2 1
    wNodeB (by rfl) (by decide)

/-- C3: the per-node timeout computed before launch equals
base_seconds + per_command_seconds × command_count, where command_count
is the number of scripted commands plus the number of
additional-command keys on the node; and the timeout is monotonic in
command count — appending a scripted command never decreases it. -/
theorem timeout_formula_and_monotone :
    (∀ node : NodeInfo, nodeTimeout node =
        BASE_NODE_TIMEOUT +
          ((node.commands.length + additionalKeyCount node : Nat) : Rat) *
            SECONDS_PER_COMMAND) ∧
    (∀ (node : NodeInfo) (c : String),
        nodeTimeout node ≤ nodeTimeout (addCommand node c)) := by
  constructor
  · intro node
    rfl
  · intro node c
    have h : numCommands node ≤ numCommands (addCommand node c) := by
      simp [numCommands, addCommand, additionalKeyCount]
    have h2 : (numCommands node : Rat) ≤ (numCommands (addCommand node c) : Rat) := by
      exact_mod_cast h
    have h5 : (0 : Rat) ≤ SECONDS_PER_COMMAND := by
      norm_num [SECONDS_PER_COMMAND]
    unfold nodeTimeout
    nlinarith [mul_le_mul_of_nonneg_right h2 h5]

theorem runScripted_log_extends (cmds : List String) (evts : List ReadEvt)
    (log : List LogLine) : ∃ t, (runScripted cmds evts log).1 = log ++ t := by
  induction cmds generalizing evts log with
  | nil => exact ⟨[], by simp [runScripted]⟩
  | cons c cs ih =>
    simp only [runScripted]
    cases h : readUntilPrompt evts with
    | none => simp only [h]; exact ⟨[LogLine.sendingCmd c], rfl⟩
    | some pr =>
      obtain ⟨resp, rest⟩ := pr
      simp only [h]
      obtain ⟨t, ht⟩ :=
        ih rest ((log ++ [LogLine.sendingCmd c]) ++ [LogLine.output resp])
      exact ⟨[LogLine.sendingCmd c] ++ [LogLine.output resp] ++ t, by
        rw [ht]; simp [List.append_assoc]⟩

theorem runCommandsPhase_log_extends (node : NodeInfo) (evts : List ReadEvt)
    (log : List LogLine) : ∃ t, (runCommandsPhase node evts log).1 = log ++ t := by
  simp only [runCommandsPhase]
  split_ifs with h1
  · cases h : readUntilPrompt evts with
    | none =>
      simp only [h]
      exact ⟨[LogLine.sendingAdd1 (node.additional_command_1.getD "")], rfl⟩
    | some pr =>
      obtain ⟨resp, rest⟩ := pr
      simp only [h]
      split_ifs with h2
      · cases h3 : readUntilPrompt rest with
        | none =>
          simp only [h3]
          exact ⟨[LogLine.sendingAdd1 (node.additional_command_1.getD ""),
            LogLine.output resp,
            LogLine.sendingAdd2 (node.additional_command_2.getD "")], by
              simp [List.append_assoc]⟩
        | some pr2 =>
          obtain ⟨resp2, rest2⟩ := pr2
          simp only [h3]
          obtain ⟨t, ht⟩ := runScripted_log_extends node.commands rest2
            ((((log ++ [LogLine.sendingAdd1 (node.additional_command_1.getD "")]) ++
              [LogLine.output resp]) ++
              [LogLine.sendingAdd2 (node.additional_command_2.getD "")]) ++
              [LogLine.output resp2])
          exact ⟨[LogLine.sendingAdd1 (node.additional_command_1.getD ""),
            LogLine.output resp,
            LogLine.sendingAdd2 (node.additional_command_2.getD ""),
            LogLine.output resp2] ++ t, by rw [ht]; simp [List.append_assoc]⟩
      · obtain ⟨t, ht⟩ := runScripted_log_extends node.commands rest
          ((log ++ [LogLine.sendingAdd1 (node.additional_command_1.getD "")]) ++
            [LogLine.output resp])
        exact ⟨[LogLine.sendingAdd1 (node.additional_command_1.getD ""),
          LogLine.output resp] ++ t, by rw [ht]; simp [List.append_assoc]⟩
  · exact runScripted_log_extends node.commands evts log

theorem logoutPolls_log_extends (n : Nat) (evts : List ReadEvt)
    (log : List LogLine) : ∃ t, (logoutPolls n evts log).2.2 = log ++ t := by
  induction n generalizing evts log with
  | zero => exact ⟨[], by simp [logoutPolls]⟩
  | succ m ih =>
    cases evts with
    | nil =>
      obtain ⟨t, ht⟩ := ih [] (log ++ [LogLine.waitingClose])
      exact ⟨[LogLine.waitingClose] ++ t, by
        simp only [logoutPolls, ht]; simp [List.append_assoc]⟩
    | cons e rest =>
      cases e with
      | timeout =>
        obtain ⟨t, ht⟩ := ih rest (log ++ [LogLine.waitingClose])
        exact ⟨[LogLine.waitingClose] ++ t, by
          simp only [logoutPolls, ht]; simp [List.append_assoc]⟩
      | data d =>
        cases d with
        | nil => exact ⟨[LogLine.closedOk], by simp [logoutPolls]⟩
        | cons b bs =>
          obtain ⟨t, ht⟩ := ih rest log
          exact ⟨t, by simp only [logoutPolls, ht]⟩

theorem logoutPhase_log_extends (evts : List ReadEvt) (log : List LogLine) :
    ∃ t, (logoutPhase evts log).1 = log ++ t := by
  simp only [logoutPhase]
  rcases h1 : logoutPolls 5 evts (log ++ [LogLine.attemptLogout "exit"]) with
    ⟨b1, rest1, log2⟩
  obtain ⟨t1, ht1⟩ :=
    logoutPolls_log_extends 5 evts (log ++ [LogLine.attemptLogout "exit"])
  rw [h1] at ht1
  simp only at ht1
  cases b1 with
  | true =>
    exact ⟨[LogLine.attemptLogout "exit"] ++ t1, by
      dsimp only; rw [ht1]; simp [List.append_assoc]⟩
  | false =>
    dsimp only
    rcases h2 : logoutPolls 5 rest1 (log2 ++ [LogLine.attemptLogout "logout"]) with
      ⟨b2, rest2, log4⟩
    obtain ⟨t2, ht2⟩ :=
      logoutPolls_log_extends 5 rest1 (log2 ++ [LogLine.attemptLogout "logout"])
    rw [h2] at ht2
    simp only at ht2
    cases b2 with
    | true =>
      refine ⟨[LogLine.attemptLogout "exit"] ++ t1 ++
        [LogLine.attemptLogout "logout"] ++ t2, ?_⟩
      dsimp only
      rw [ht2, ht1]; simp [List.append_assoc]
    | false =>
      refine ⟨[LogLine.attemptLogout "exit"] ++ t1 ++
        [LogLine.attemptLogout "logout"] ++ t2, ?_⟩
      dsimp only
      rw [ht2, ht1]; simp [List.append_assoc]

theorem sessionScript_log_extends (node : NodeInfo) (p : String)
    (evts : List ReadEvt) (log : List LogLine) :
    ∃ t, (sessionScript node p evts log).1 = log ++ t := by
  simp only [sessionScript]
  cases h : readUntilPrompt evts with
  | none => simp only [h]; exact ⟨[], by simp⟩
  | some pr =>
    obtain ⟨initOut, rest⟩ := pr
    simp only [h]
    rcases h2 : runCommandsPhase node rest (log ++ [LogLine.output initOut]) with
      ⟨log2, r2⟩
    obtain ⟨t2, ht2⟩ :=
      runCommandsPhase_log_extends node rest (log ++ [LogLine.output initOut])
    rw [h2] at ht2
    simp only at ht2
    cases r2 with
    | none =>
      exact ⟨[LogLine.output initOut] ++ t2, by
        dsimp only; rw [ht2]; simp [List.append_assoc]⟩
    | some rest2 =>
      dsimp only
      rcases h3 : logoutPhase rest2 log2 with ⟨log3, ok⟩
      obtain ⟨t3, ht3⟩ := logoutPhase_log_extends rest2 log2
      rw [h3] at ht3
      simp only at ht3
      cases ok with
      | true =>
        exact ⟨[LogLine.output initOut] ++ t2 ++ t3, by
          dsimp only; rw [ht3, ht2]; simp [List.append_assoc]⟩
      | false =>
        exact ⟨[LogLine.output initOut] ++ t2 ++ t3, by
          dsimp only; rw [ht3, ht2]; simp [List.append_assoc]⟩

/-- C10: for every invocation of execute_telnet_async or
execute_ssh_async — whatever the connect outcome and event stream,
including immediate connect or auth failure — the session's log is
created and its first line is the connecting banner, written before any
network I/O outcome can influence it. -/
theorem log_starts_with_banner :
    ∀ (node : NodeInfo) (path : String) (conn : ConnEvt)
      (evts : List ReadEvt) (sconn : SshConnEvt) (sevts : List ReadEvt),
      (executeTelnetAsync node path conn evts).1.head? =
        some (LogLine.connectBanner node.nodename node.ip_address "Telnet") ∧
      (executeSshAsync node path sconn sevts).1.head? =
        some (LogLine.connectBanner node.nodename node.ip_address "SSH") := by
  intro node path conn evts sconn sevts
  constructor
  · cases conn with
    | timeoutErr => rfl
    | osErr m => rfl
    | ok =>
      simp only [executeTelnetAsync]
      rcases hn : negoLoop 10 evts [] [] with ⟨buf, resp, rest⟩
      dsimp only
      split_ifs with hc
      · rcases hp : pwLoop 30 rest [] with ⟨found, pbuf, rest2⟩
        cases found with
        | true =>
          dsimp only
          obtain ⟨t, ht⟩ := sessionScript_log_extends node path rest2
            [LogLine.connectBanner node.nodename node.ip_address "Telnet",
              LogLine.received buf]
          rw [ht]
          rfl
        | false => rfl
      · rfl
  · cases sconn with
    | sshErr m => rfl
    | otherErr m => rfl
    | ok =>
      simp only [executeSshAsync]
      obtain ⟨t, ht⟩ := sessionScript_log_extends node path sevts
        [LogLine.connectBanner node.nodename node.ip_address "SSH"]
      rw [ht]
      rfl

theorem negoLoop_data_cons (n b : Nat) (bs : List Nat) (rest : List ReadEvt)
    (buf resp : List Nat) :
    negoLoop (n + 1) (ReadEvt.data (b :: bs) :: rest) buf resp =
      (if cueFound (buf ++ (telnetFilter (b :: bs)).2)
       then (buf ++ (telnetFilter (b :: bs)).2,
             resp ++ (telnetFilter (b :: bs)).1, rest)
       else negoLoop n rest (buf ++ (telnetFilter (b :: bs)).2)
              (resp ++ (telnetFilter (b :: bs)).1)) := by
  simp [negoLoop]

/-- C4: during Telnet negotiation every complete incoming IAC WILL
option triple is answered IAC DONT option and every IAC DO option triple
IAC WONT option, while non-IAC bytes pass into the scanned buffer
(first three conjuncts, compositional over the chunk); and the
username/login cue is matched against the whole accumulated non-IAC
buffer, so a cue split across two separate reads is still detected and
login proceeds (fourth conjunct). -/
theorem telnet_refusals_and_split_cue :
    (∀ (o : Nat) (rest : List Nat),
        telnetFilter (255 :: 251 :: o :: rest) =
          (255 :: 254 :: o :: (telnetFilter rest).1, (telnetFilter rest).2)) ∧
    (∀ (o : Nat) (rest : List Nat),
        telnetFilter (255 :: 253 :: o :: rest) =
          (255 :: 252 :: o :: (telnetFilter rest).1, (telnetFilter rest).2)) ∧
    (∀ (b : Nat) (rest : List Nat), b ≠ 255 →
        telnetFilter (b :: rest) =
          ((telnetFilter rest).1, b :: (telnetFilter rest).2)) ∧
    (∀ c1 c2 : List Nat, c1 ≠ [] → c2 ≠ [] →
        cueFound ((telnetFilter c1).2 ++ (telnetFilter c2).2) = true →
        cueFound (negoLoop 10 [ReadEvt.data c1, ReadEvt.data c2] [] []).1 = true) := by
  refine ⟨?_, ?_, ?_, ?_⟩
  · intro o rest
    rfl
  · intro o rest
    rfl
  · intro b rest h
    rw [telnetFilter.eq_def]
    simp [h]
  · intro c1 c2 h1 h2 hc
    obtain ⟨b1, bs1, rfl⟩ : ∃ x xs, c1 = x :: xs := by
      cases c1 with
      | nil => exact absurd rfl h1
      | cons x xs => exact ⟨x, xs, rfl⟩
    obtain ⟨b2, bs2, rfl⟩ : ∃ x xs, c2 = x :: xs := by
      cases c2 with
      | nil => exact absurd rfl h2
      | cons x xs => exact ⟨x, xs, rfl⟩
    have e1 := negoLoop_data_cons 9 b1 bs1 [ReadEvt.data (b2 :: bs2)] [] []
    have e2 := negoLoop_data_cons 8 b2 bs2 [] ((telnetFilter (b1 :: bs1)).2)
      ((telnetFilter (b1 :: bs1)).1)
    rw [List.nil_append, List.nil_append] at e1
    rw [show (10 : Nat) = 9 + 1 from rfl, e1]
    by_cases hcue1 : cueFound (telnetFilter (b1 :: bs1)).2 = true
    · rw [if_pos hcue1]
      exact hcue1
    · rw [if_neg hcue1]
      rw [show (9 : Nat) = 8 + 1 from rfl, e2]
      rw [if_pos hc]
      exact hc

def wChunk1 : List Nat := [255, 251, 1, 76, 111, 103]

def wChunk2 : List Nat := [105, 110, 58]

theorem telnet_refusals_and_split_cue_witness :
    telnetFilter [80, 76] = ((telnetFilter [76]).1, 80 :: (telnetFilter [76]).2) ∧
    cueFound (negoLoop 10 [ReadEvt.data wChunk1, ReadEvt.data wChunk2] [] []).1 = true :=
  ⟨telnet_refusals_and_split_cue.2.2.1 80 [76] (by decide),
   telnet_refusals_and_split_cue.2.2.2 wChunk1 wChunk2 (by decide) (by decide)
     (by decide)⟩

theorem term_not_space (b : Nat) (h : isTermByte b = true) :
    isSpaceByte b = false := by
  simp only [isTermByte, Bool.or_eq_true, beq_iff_eq] at h
  rcases h with (h | h) | h <;> subst h <;> rfl

theorem dropWhile_append_of_all {p : Nat → Bool} (l1 l2 : List Nat)
    (h : ∀ a ∈ l1, p a = true) :
    (l1 ++ l2).dropWhile p = l2.dropWhile p := by
  induction l1 with
  | nil => rfl
  | cons a l ih =>
    rw [List.cons_append, List.dropWhile_cons, if_pos (h a (by simp))]
    exact ih (fun x hx => h x (by simp [hx]))

theorem promptMatch_iff (line : List Nat) :
    promptMatch line = true ↔ promptSpecMatch line := by
  constructor
  · intro h
    unfold promptMatch at h
    rcases hd : line.reverse.dropWhile isSpaceByte with _ | ⟨t, rest1⟩
    · rw [hd] at h; exact absurd h (by simp)
    · rcases rest1 with _ | ⟨c, rest⟩
      · rw [hd] at h; exact absurd h (by simp)
      · rw [hd] at h
        simp only [Bool.and_eq_true, Bool.not_eq_true'] at h
        obtain ⟨ht, hc⟩ := h
        have hsplit :
            line.reverse.takeWhile isSpaceByte ++ (t :: c :: rest) =
              line.reverse := by
          rw [← hd]; exact List.takeWhile_append_dropWhile isSpaceByte _
        have hmem : ∀ b ∈ line.reverse.takeWhile isSpaceByte,
            isSpaceByte b = true :=
          fun b hb => List.mem_takeWhile_imp hb
        generalize hWdef : line.reverse.takeWhile isSpaceByte = W at hsplit hmem
        have hline2 : line = (W ++ (t :: c :: rest)).reverse := by
          rw [hsplit, List.reverse_reverse]
        refine ⟨rest.reverse, c, t, W.reverse, ?_, hc, ht, ?_⟩
        · rw [hline2]
          simp [List.reverse_append, List.append_assoc]
        · intro b hb
          exact hmem b (List.mem_reverse.mp hb)
  · rintro ⟨p, c, t, w, rfl, hc, ht, hw⟩
    unfold promptMatch
    have h1 : (p ++ [c, t] ++ w).reverse = w.reverse ++ (t :: c :: p.reverse) := by
      simp [List.reverse_append]
    rw [h1]
    rw [dropWhile_append_of_all w.reverse (t :: c :: p.reverse)
      (fun a ha => hw a (List.mem_reverse.mp ha))]
    rw [List.dropWhile_cons, if_neg (by simp [term_not_space t ht])]
    simp [ht, hc]

theorem feedChunks_fold (cs : List (List Nat)) :
    ∀ acc : List Nat,
      cs.foldl feedStep (acc, promptDetected acc) =
        (acc ++ cs.flatten, promptDetected (acc ++ cs.flatten)) := by
  induction cs with
  | nil => intro acc; simp
  | cons c cs ih =>
    intro acc
    simp only [List.foldl_cons, feedStep]
    rw [ih (acc ++ c)]
    simp [List.flatten_cons, List.append_assoc]

/-- C5: the prompt-completion verdict is a pure function of the
accumulated buffer — it holds iff the last non-blank line matches a
non-space token ending in a prompt terminator followed by optional
trailing whitespace (first conjunct, against the spec-worded predicate
promptSpecMatch); evaluating the same buffer twice yields the same
verdict (second conjunct); and re-evaluating incrementally on growing
prefixes yields, on the last prefix, the same verdict as evaluating the
full concatenation at once (third conjunct). -/
theorem prompt_verdict_pure_and_incremental :
    (∀ buf : List Nat, promptDetected buf = true ↔
        ∃ l, (nonEmptyLines buf).getLast? = some l ∧ promptSpecMatch l) ∧
    (∀ b1 b2 : List Nat, b1 = b2 → promptDetected b1 = promptDetected b2) ∧
    (∀ chunks : List (List Nat),
        feedChunks chunks = promptDetected chunks.flatten) := by
  refine ⟨?_, ?_, ?_⟩
  · intro buf
    unfold promptDetected
    cases h : (nonEmptyLines buf).getLast? with
    | none => simp
    | some l =>
      constructor
      · intro hm
        exact ⟨l, rfl, (promptMatch_iff l).mp hm⟩
      · rintro ⟨l2, hl2, hs⟩
        obtain rfl : l = l2 := by
          injection hl2
        exact (promptMatch_iff l).mpr hs
  · intro b1 b2 h
    rw [h]
  · intro chunks
    unfold feedChunks
    rw [feedChunks_fold chunks []]
    simp

theorem prompt_verdict_pure_and_incremental_witness :
    promptDetected [114, 62] = promptDetected [114, 62] :=
  prompt_verdict_pure_and_incremental.2.1 [114, 62] [114, 62] rfl

theorem logoutPolls_found_iff (n : Nat) (evts : List ReadEvt)
    (log : List LogLine) :
    (logoutPolls n evts log).1 = true ↔
      ∃ i, i < n ∧ evts[i]? = some (ReadEvt.data []) := by
  induction n generalizing evts log with
  | zero => simp [logoutPolls]
  | succ m ih =>
    cases evts with
    | nil =>
      simp only [logoutPolls]
      rw [ih]
      simp
    | cons e rest =>
      cases e with
      | timeout =>
        simp only [logoutPolls]
        rw [ih]
        constructor
        · rintro ⟨i, hi, hg⟩
          exact ⟨i + 1, by omega, by simpa using hg⟩
        · rintro ⟨i, hi, hg⟩
          cases i with
          | zero => simp at hg
          | succ j => exact ⟨j, by omega, by simpa using hg⟩
      | data d =>
        cases d with
        | nil =>
          simp only [logoutPolls]
          exact iff_of_true (by simp) ⟨0, by omega, by simp⟩
        | cons b bs =>
          simp only [logoutPolls]
          rw [ih]
          constructor
          · rintro ⟨i, hi, hg⟩
            exact ⟨i + 1, by omega, by simpa using hg⟩
          · rintro ⟨i, hi, hg⟩
            cases i with
            | zero => simp at hg
            | succ j => exact ⟨j, by omega, by simpa using hg⟩

theorem logoutPolls_rest (n : Nat) (evts : List ReadEvt) (log : List LogLine)
    (h : (logoutPolls n evts log).1 = false) :
    (logoutPolls n evts log).2.1 = evts.drop n := by
  induction n generalizing evts log with
  | zero => simp [logoutPolls]
  | succ m ih =>
    cases evts with
    | nil =>
      simp only [logoutPolls] at h ⊢
      rw [ih _ _ h]
      simp
    | cons e rest =>
      cases e with
      | timeout =>
        simp only [logoutPolls] at h ⊢
        rw [ih _ _ h, List.drop_succ_cons]
      | data d =>
        cases d with
        | nil =>
          simp only [logoutPolls] at h
          exact absurd h (by simp)
        | cons b bs =>
          simp only [logoutPolls] at h ⊢
          rw [ih _ _ h, List.drop_succ_cons]

theorem logoutPhase_true_iff (evts : List ReadEvt) (log : List LogLine) :
    (logoutPhase evts log).2 = true ↔
      ∃ i, i < 10 ∧ evts[i]? = some (ReadEvt.data []) := by
  simp only [logoutPhase]
  rcases h1 : logoutPolls 5 evts (log ++ [LogLine.attemptLogout "exit"]) with
    ⟨b1, rest1, log2⟩
  cases b1 with
  | true =>
    dsimp only
    have hfound := (logoutPolls_found_iff 5 evts
      (log ++ [LogLine.attemptLogout "exit"])).mp (by rw [h1])
    constructor
    · intro _
      obtain ⟨i, hi, hg⟩ := hfound
      exact ⟨i, by omega, hg⟩
    · intro _
      rfl
  | false =>
    dsimp only
    have hno : ¬ ∃ i, i < 5 ∧ evts[i]? = some (ReadEvt.data []) := by
      rw [← logoutPolls_found_iff 5 evts (log ++ [LogLine.attemptLogout "exit"])]
      rw [h1]
      simp
    have hrest : rest1 = evts.drop 5 := by
      have hr := logoutPolls_rest 5 evts (log ++ [LogLine.attemptLogout "exit"])
        (by rw [h1])
      rw [h1] at hr
      exact hr
    rcases h2 : logoutPolls 5 rest1 (log2 ++ [LogLine.attemptLogout "logout"]) with
      ⟨b2, rest2, log4⟩
    have hiff2 := logoutPolls_found_iff 5 rest1
      (log2 ++ [LogLine.attemptLogout "logout"])
    rw [h2] at hiff2
    cases b2 with
    | true =>
      dsimp only
      have h5 : ∃ i, i < 5 ∧ rest1[i]? = some (ReadEvt.data []) := hiff2.mp rfl
      constructor
      · intro _
        obtain ⟨i, hi, hg⟩ := h5
        rw [hrest, List.getElem?_drop] at hg
        exact ⟨5 + i, by omega, hg⟩
      · intro _
        rfl
    | false =>
      dsimp only
      have h5 : ¬ ∃ i, i < 5 ∧ rest1[i]? = some (ReadEvt.data []) := by
        intro hx
        have := hiff2.mpr hx
        simp at this
      constructor
      · intro hfalse
        simp at hfalse
      · rintro ⟨i, hi, hg⟩
        exfalso
        by_cases hlt : i < 5
        · exact hno ⟨i, hlt, hg⟩
        · apply h5
          refine ⟨i - 5, by omega, ?_⟩
          rw [hrest, List.getElem?_drop]
          have heq : 5 + (i - 5) = i := by omega
          rw [heq]
          exact hg

/-- C6: for every session that reaches the logout phase, logout succeeds
(and the session returns its log artifact path) iff some read during the
ten logout polls (five after 'exit', five after 'logout') returns empty
— EOF, the peer closing — and otherwise the phase reports failure while
the transcript written so far is preserved, only appended to (first
conjunct); in the full session the verdict of the logout phase alone
decides between Succeeded-with-path and the LogoutFailed error (second
conjunct).  Both executors run this same logout code. -/
theorem logout_success_iff_eof :
    (∀ (evts : List ReadEvt) (log : List LogLine),
        ((logoutPhase evts log).2 = true ↔
          ∃ i, i < 10 ∧ evts[i]? = some (ReadEvt.data [])) ∧
        ∃ t, (logoutPhase evts log).1 = log ++ t) ∧
    (∀ (node : NodeInfo) (path : String) (evts : List ReadEvt)
        (log : List LogLine) (initOut : List Nat) (rest rest2 : List ReadEvt)
        (log2 : List LogLine),
        readUntilPrompt evts = some (initOut, rest) →
        runCommandsPhase node rest (log ++ [LogLine.output initOut]) =
          (log2, some rest2) →
        (sessionScript node path evts log).2 =
          (if (logoutPhase rest2 log2).2 then Except.ok (some path)
           else Except.error PyExc.logoutFailedErr)) := by
  constructor
  · intro evts log
    exact ⟨logoutPhase_true_iff evts log, logoutPhase_log_extends evts log⟩
  · intro node path evts log initOut rest rest2 log2 h1 h2
    simp only [sessionScript, h1]
    rw [h2]
    dsimp only
    rcases h3 : logoutPhase rest2 log2 with ⟨log3, ok⟩
    cases ok with
    | true => rfl
    | false => rfl

def w6Node : NodeInfo :=
  ⟨"n6", "10.0.0.6", some "telnet", "u", "p", none, none, []⟩

/-- "router> " -/
def w6Prompt : List Nat := [114, 111, 117, 116, 101, 114, 62, 32]

def w6Evts : List ReadEvt := [ReadEvt.data w6Prompt, ReadEvt.data []]

theorem logout_success_iff_eof_witness :
    (sessionScript w6Node "log.txt" w6Evts []).2 =
      (if (logoutPhase [ReadEvt.data []] [LogLine.output w6Prompt]).2
       then Except.ok (some "log.txt")
       else Except.error PyExc.logoutFailedErr) :=
  logout_success_iff_eof.2 w6Node "log.txt" w6Evts [] w6Prompt
    [ReadEvt.data []] [ReadEvt.data []] [LogLine.output w6Prompt]
    (by decide) (by decide)

/-- "Login:" -/
def loginChunk : List Nat := [76, 111, 103, 105, 110, 58]

/-- "Password:" -/
def passwordChunk : List Nat := [80, 97, 115, 115, 119, 111, 114, 100, 58]

def c7Node : NodeInfo :=
  ⟨"n7", "10.0.0.7", some "telnet", "u", "p", none, none, []⟩

def c7Evts : List ReadEvt :=
  [ReadEvt.data loginChunk, ReadEvt.data passwordChunk, ReadEvt.data w6Prompt]

def c7Oracle : NodeInfo → AwaitedOutcome := fun n =>
  toAwaited (executeTelnetAsync n "n7_log.txt" ConnEvt.ok c7Evts).2

/-- C7 counterexample: a Telnet session that authenticates, runs its
(empty) script, writes transcript lines to its log, and then ends
LogoutFailed because no logout poll sees EOF.  The completion loop's
archive list for this batch is empty: the LogoutFailed session's log
path is NOT retained, contradicting the claim that every session that
produced a log file has its path handed to the archiver regardless of
failure kind. -/
theorem logoutfailed_log_not_archived :
    (executeTelnetAsync c7Node "n7_log.txt" ConnEvt.ok c7Evts).2 =
      Except.error PyExc.logoutFailedErr ∧
    (executeTelnetAsync c7Node "n7_log.txt" ConnEvt.ok c7Evts).1 ≠ [] ∧
    collectArtifacts (runBatch [c7Node] c7Oracle) = [] := by
  refine ⟨by rfl, by decide, by rfl⟩

/-- C7 amended: the list handed to the archiver contains exactly the
paths of the sessions whose triple has no error and a truthy result —
i.e. only sessions that completed the full logout-EOF success path.
Logs of LogoutFailed, PromptTimeout and timed-out sessions stay on disk
but are not archived. -/
theorem artifact_list_exactly_success_paths :
    ∀ (results : List TaskResult) (p : String),
      p ∈ collectArtifacts results ↔
        ∃ r ∈ results, r.error = none ∧ r.result = some p ∧
          p.isEmpty = false := by
  intro results p
  unfold collectArtifacts
  rw [List.mem_filterMap]
  constructor
  · rintro ⟨r, hr, hf⟩
    rcases he : r.error with _ | e
    · rcases hres : r.result with _ | q
      · rw [he, hres] at hf
        simp at hf
      · rw [he, hres] at hf
        dsimp only at hf
        by_cases hq : q.isEmpty = true
        · rw [if_pos hq] at hf
          simp at hf
        · rw [if_neg hq] at hf
          obtain rfl : q = p := by injection hf
          exact ⟨r, hr, he, hres, by simpa using hq⟩
    · rw [he] at hf
      simp at hf
  · rintro ⟨r, hr, he, hres, hne⟩
    refine ⟨r, hr, ?_⟩
    rw [he, hres]
    simp [hne]

def c8Node : NodeInfo :=
  ⟨"n8", "10.0.0.8", some "telnet", "u", "p", none, none, []⟩

/-- C8 counterexample: when the username/login cue is never observed
(the first negotiation read times out), the session raises the same
asyncio.TimeoutError that run_node_task maps to the generic
"TimeoutError" outcome, so its task triple is identical to the triple of
an overall timeout — the failure is not a distinct AuthError kind. -/
theorem auth_cue_timeout_same_as_overall_timeout :
    (executeTelnetAsync c8Node "n8_log.txt" ConnEvt.ok [ReadEvt.timeout]).2 =
      Except.error PyExc.timeoutErr ∧
    runNodeTask c8Node
        (toAwaited
          (executeTelnetAsync c8Node "n8_log.txt" ConnEvt.ok [ReadEvt.timeout]).2) =
      runNodeTask c8Node AwaitedOutcome.timedOut := by
  refine ⟨by rfl, by rfl⟩

theorem runNodeTask_timeout_error (node : NodeInfo)
    (hproto : protocolOf node = "telnet") :
    (runNodeTask node (AwaitedOutcome.raised PyExc.timeoutErr)).error =
      some "TimeoutError" := by
  have hor : protocolOf node = "ssh" ∨ protocolOf node = "telnet" :=
    Or.inr hproto
  simp only [runNodeTask]
  rw [if_pos hor]

/-- C8 amended: if the expected cue is not observed within its bounded
polling ceiling — whether the username/login cue during the negotiation
loop (first conjunct) or, after that cue was seen, the password cue
during its 30-poll scan (second conjunct) — the Telnet session raises
asyncio.TimeoutError and the task boundary records the node's error as
the generic "TimeoutError" string, the same classification as an overall
timeout, not a distinct AuthError kind. -/
theorem auth_cue_miss_yields_timeout :
    (∀ (node : NodeInfo) (path : String) (evts : List ReadEvt),
        cueFound (negoLoop 10 evts [] []).1 = false →
        protocolOf node = "telnet" →
        (executeTelnetAsync node path ConnEvt.ok evts).2 =
          Except.error PyExc.timeoutErr ∧
        (runNodeTask node
            (toAwaited (executeTelnetAsync node path ConnEvt.ok evts).2)).error =
          some "TimeoutError") ∧
    (∀ (node : NodeInfo) (path : String) (evts : List ReadEvt),
        cueFound (negoLoop 10 evts [] []).1 = true →
        (pwLoop 30 (negoLoop 10 evts [] []).2.2 []).1 = false →
        protocolOf node = "telnet" →
        (executeTelnetAsync node path ConnEvt.ok evts).2 =
          Except.error PyExc.timeoutErr ∧
        (runNodeTask node
            (toAwaited (executeTelnetAsync node path ConnEvt.ok evts).2)).error =
          some "TimeoutError") := by
  constructor
  · intro node path evts h hproto
    have hmain : (executeTelnetAsync node path ConnEvt.ok evts).2 =
        Except.error PyExc.timeoutErr := by
      simp only [executeTelnetAsync]
      rcases hn : negoLoop 10 evts [] [] with ⟨buf, resp, rest⟩
      rw [hn] at h
      simp only at h
      dsimp only
      rw [if_neg (by simp [h])]
    refine ⟨hmain, ?_⟩
    rw [hmain]
    exact runNodeTask_timeout_error node hproto
  · intro node path evts hcue hpw hproto
    have hmain : (executeTelnetAsync node path ConnEvt.ok evts).2 =
        Except.error PyExc.timeoutErr := by
      simp only [executeTelnetAsync]
      rcases hn : negoLoop 10 evts [] [] with ⟨buf, resp, rest⟩
      rw [hn] at hcue hpw
      simp only at hcue hpw
      dsimp only
      rw [if_pos hcue]
      rcases hp : pwLoop 30 rest [] with ⟨found, pbuf, rest2⟩
      rw [hp] at hpw
      simp only at hpw
      subst hpw
      rfl
    refine ⟨hmain, ?_⟩
    rw [hmain]
    exact runNodeTask_timeout_error node hproto

theorem auth_cue_miss_yields_timeout_witness :
    ((executeTelnetAsync c8Node "n8_log.txt" ConnEvt.ok [ReadEvt.timeout]).2 =
        Except.error PyExc.timeoutErr ∧
      (runNodeTask c8Node
          (toAwaited
            (executeTelnetAsync c8Node "n8_log.txt" ConnEvt.ok
              [ReadEvt.timeout]).2)).error =
        some "TimeoutError") ∧
    ((executeTelnetAsync c8Node "n8_log.txt" ConnEvt.ok
          [ReadEvt.data loginChunk]).2 =
        Except.error PyExc.timeoutErr ∧
      (runNodeTask c8Node
          (toAwaited
            (executeTelnetAsync c8Node "n8_log.txt" ConnEvt.ok
              [ReadEvt.data loginChunk]).2)).error =
        some "TimeoutError") :=
  ⟨auth_cue_miss_yields_timeout.1 c8Node "n8_log.txt" [ReadEvt.timeout]
      (by decide) (by decide),
    auth_cue_miss_yields_timeout.2 c8Node "n8_log.txt" [ReadEvt.data loginChunk]
      (by decide) (by decide) (by decide)⟩

def c9Node : NodeInfo :=
  ⟨"n9", "10.0.0.9", some "telnet", "u", "p", some "extra1", some "extra2", []⟩

def c9Evts : List ReadEvt :=
  [ReadEvt.data loginChunk, ReadEvt.data passwordChunk, ReadEvt.data w6Prompt,
    ReadEvt.data w6Prompt, ReadEvt.data []]

/-- C9 counterexample: additional_command_1 is sent (log index 3) right
after the initial prompt output "router> " (log index 2), which contains
no ':' marker — so a follow-up command is sent although the most recent
prior response does not contain the marker substring. -/
theorem followup_sent_without_marker :
    ((executeTelnetAsync c9Node "n9_log.txt" ConnEvt.ok c9Evts).1)[2]? =
      some (LogLine.output w6Prompt) ∧
    ((executeTelnetAsync c9Node "n9_log.txt" ConnEvt.ok c9Evts).1)[3]? =
      some (LogLine.sendingAdd1 "extra1") ∧
    hasColon w6Prompt = false := by
  refine ⟨by decide, by decide, by decide⟩

theorem runScripted_keeps_log (cmds : List String) (evts : List ReadEvt)
    (log : List LogLine) (x : LogLine) (h : x ∈ log) :
    x ∈ (runScripted cmds evts log).1 := by
  obtain ⟨t, ht⟩ := runScripted_log_extends cmds evts log
  rw [ht]
  exact List.mem_append_left t h

theorem runScripted_no_add2 (cmds : List String) (evts : List ReadEvt)
    (log : List LogLine) (c : String)
    (h : LogLine.sendingAdd2 c ∈ (runScripted cmds evts log).1) :
    LogLine.sendingAdd2 c ∈ log := by
  induction cmds generalizing evts log with
  | nil => simpa [runScripted] using h
  | cons d ds ih =>
    simp only [runScripted] at h
    cases hr : readUntilPrompt evts with
    | none =>
      rw [hr] at h
      simpa using h
    | some pr =>
      obtain ⟨resp, rest⟩ := pr
      rw [hr] at h
      have hmem := ih rest ((log ++ [LogLine.sendingCmd d]) ++ [LogLine.output resp]) h
      simpa using hmem

/-- C9 amended: the first follow-up command (additional_command_1) is
sent unconditionally whenever present and non-empty, regardless of any
response content; only the second follow-up is conditional — it is sent
only when the first is present and the response read after the first
contains the ':' marker. -/
theorem followup_send_conditions :
    (∀ (node : NodeInfo) (evts : List ReadEvt) (log : List LogLine),
        optTruthy node.additional_command_1 = true →
        LogLine.sendingAdd1 (node.additional_command_1.getD "") ∈
          (runCommandsPhase node evts log).1) ∧
    (∀ (node : NodeInfo) (evts : List ReadEvt) (c : String),
        LogLine.sendingAdd2 c ∈ (runCommandsPhase node evts []).1 →
        optTruthy node.additional_command_1 = true ∧
        optTruthy node.additional_command_2 = true ∧
        ∃ resp rest, readUntilPrompt evts = some (resp, rest) ∧
          hasColon resp = true ∧ c = node.additional_command_2.getD "") := by
  constructor
  · intro node evts log h1
    simp only [runCommandsPhase]
    rw [if_pos h1]
    cases hr : readUntilPrompt evts with
    | none =>
      simp
    | some pr =>
      obtain ⟨resp, rest⟩ := pr
      dsimp only
      split_ifs with h2
      · cases hr2 : readUntilPrompt rest with
        | none => simp
        | some pr2 =>
          obtain ⟨resp2, rest2⟩ := pr2
          dsimp only
          apply runScripted_keeps_log
          simp
      · apply runScripted_keeps_log
        simp
  · intro node evts c h
    simp only [runCommandsPhase] at h
    by_cases h1 : optTruthy node.additional_command_1 = true
    · rw [if_pos h1] at h
      refine ⟨h1, ?_⟩
      cases hr : readUntilPrompt evts with
      | none =>
        rw [hr] at h
        simp at h
      | some pr =>
        obtain ⟨resp, rest⟩ := pr
        rw [hr] at h
        dsimp only at h
        by_cases h2 : (optTruthy node.additional_command_2 && hasColon resp) = true
        · rw [if_pos h2] at h
          rw [Bool.and_eq_true] at h2
          refine ⟨h2.1, resp, rest, rfl, h2.2, ?_⟩
          cases hr2 : readUntilPrompt rest with
          | none =>
            rw [hr2] at h
            simpa using h
          | some pr2 =>
            obtain ⟨resp2, rest2⟩ := pr2
            rw [hr2] at h
            dsimp only at h
            have hmem := runScripted_no_add2 node.commands rest2 _ c h
            simpa using hmem
        · rw [if_neg h2] at h
          have hmem := runScripted_no_add2 node.commands rest _ c h
          simp at hmem
    · rw [if_neg h1] at h
      have hmem := runScripted_no_add2 node.commands evts [] c h
      simp at hmem

def w9Node : NodeInfo :=
  ⟨"w9", "10.0.0.19", some "telnet", "u", "p", some "a1", some "a2", []⟩

/-- "done:> " — a prompt-terminated response that contains the ':' marker. -/
def w9Colon : List Nat := [100, 111, 110, 101, 58, 62, 32]

def w9Evts : List ReadEvt := [ReadEvt.data w9Colon, ReadEvt.data w6Prompt]

theorem followup_send_conditions_witness :
    optTruthy w9Node.additional_command_1 = true ∧
    optTruthy w9Node.additional_command_2 = true ∧
    ∃ resp rest, readUntilPrompt w9Evts = some (resp, rest) ∧
      hasColon resp = true ∧ "a2" = w9Node.additional_command_2.getD "" :=
  followup_send_conditions.2 w9Node w9Evts "a2" (by decide)

end Showtime
